import Mathlib

/-!
# Verification of the schema-driven entity modeling core

This development embeds the entity-modeling core of the repository in Lean 4
and proves/refutes the frozen claims about it.

The repository fragment under `src/` contains the `subGetters` Vuex module
(embedded at the bottom of this file) and the unit tests of the `Model`
class.  The `Model` class itself is not part of the fragment, so its data
model and operations are modelled from the specification (each such
definition carries a doc comment starting with `Modelled from the spec:`)
and checked against the behaviour evidenced by the unit tests.
-/

set_option autoImplicit false

/-- Association-list lookup with string keys.  This is the mapping-access
primitive used throughout the model for raw-input objects, schema field
tables, mutator tables and record field tables. -/
def alookup {β : Type} (k : String) : List (String × β) → Option β
  | [] => none
  | p :: rest => if p.1 = k then some p.2 else alookup k rest

/-- Primitive (scalar) JavaScript-like values appearing in raw data. -/
inductive Prim where
  | pNull : Prim
  | pBool : Bool → Prim
  | pNum : Int → Prim
  | pStr : String → Prim
deriving DecidableEq

/-- Raw nested data: a primitive, an object (ordered key/value mapping) or an
ordered array.  Raw input to instantiation and the output of serialization
are both of this shape. -/
inductive RawValue where
  | prim : Prim → RawValue
  | obj : List (String × RawValue) → RawValue
  | arr : List RawValue → RawValue

/-- Key access on a raw value; non-objects have no keys (per the spec an
absent key is a valid, silently handled state, never an error). -/
def RawValue.getKey (k : String) : RawValue → Option RawValue
  | .obj kvs => alookup k kvs
  | _ => none

/-- Modelled from the spec: the Attribute Descriptor tagged variant (§3) —
`Plain` with a default value and an optional descriptor-level mutator,
`ToOne`/`ToMany` with a related entity type and a foreign-key field. -/
inductive Attr where
  | plain : RawValue → Option (RawValue → RawValue) → Attr
  | toOne : String → String → Attr
  | toMany : String → String → Attr

/-- Modelled from the spec: a declared primary key is one field name or an
ordered sequence of field names (§3). -/
inductive PrimaryKey where
  | single : String → PrimaryKey
  | composite : List String → PrimaryKey

/-- Modelled from the spec: the Schema owned by an entity type (§3) —
entity name, primary key, the field-name → Attribute-Descriptor mapping in
declared order, and the entity-level mutator table. -/
structure Schema where
  entity : String
  primaryKey : PrimaryKey
  fields : List (String × Attr)
  mutators : List (String × (RawValue → RawValue))

/-- A registry of schemas keyed by entity-type name; relations are resolved
through it (the spec's process-wide Schema Registry, §4.1). -/
def Registry : Type := List (String × Schema)

mutual
/-- A field value stored on a Record: a plain raw value, an optional nested
Record (to-one; `none` is the absent state), or an ordered sequence of
Records (to-many). -/
inductive FieldValue where
  | plain : RawValue → FieldValue
  | one : Option Record → FieldValue
  | many : List Record → FieldValue
/-- A Record: an instance of an entity type, a mapping from every declared
field name to its current value (§3). -/
inductive Record where
  | mk : String → List (String × FieldValue) → Record
end

/-- The entity-type name of a record. -/
def Record.entity : Record → String
  | .mk e _ => e

/-- The field table of a record. -/
def Record.fieldTable : Record → List (String × FieldValue)
  | .mk _ fs => fs

/-- Field access on a record; accessing a key that is not a declared field
yields nothing (`none`). -/
def Record.getField (r : Record) (n : String) : Option FieldValue :=
  alookup n r.fieldTable

/-- The names of the fields a record holds, in declared order. -/
def Record.fieldNames (r : Record) : List String :=
  r.fieldTable.map Prod.fst

/-- Modelled from the spec: mutation precedence (§4.2 step 3) — the
descriptor-level mutator wins; else the entity-level mutator registered
under the field's name; else the value passes through unchanged. -/
def applyMutation (sch : Schema) (name : String)
    (descMut : Option (RawValue → RawValue)) (v : RawValue) : RawValue :=
  match descMut with
  | some m => m v
  | none =>
    match alookup name sch.mutators with
    | some m => m v
    | none => v

/-- Modelled from the spec: building one field of a record (§4.2 steps 1-4),
parameterized by the recursive instantiation function `inst` used for
relation fields.  A `Plain` field takes the input value if the key exists,
else the descriptor default, and stores the mutated result; a `ToOne` field
recursively instantiates the nested value when present and is absent
otherwise; a `ToMany` field recursively instantiates every element of a
present array in input order and is an empty sequence otherwise. -/
def buildField (inst : String → RawValue → Record) (sch : Schema)
    (input : Option RawValue) (p : String × Attr) : String × FieldValue :=
  (p.1,
   match p.2 with
   | .plain dv dm =>
     .plain (applyMutation sch p.1 dm
       (match input.bind (RawValue.getKey p.1) with
        | some v => v
        | none => dv))
   | .toOne rel _ =>
     match input.bind (RawValue.getKey p.1) with
     | some v => .one (some (inst rel v))
     | none => .one none
   | .toMany rel _ =>
     match input.bind (RawValue.getKey p.1) with
     | some (.arr xs) => .many (xs.map (fun x => inst rel x))
     | _ => .many [])

/-- Modelled from the spec: the fuel-indexed instantiation pipeline
(§4.2) — per declared field in schema order, build the field value from the
raw input, recursing through relation fields.  The fuel only bounds the
recursion depth; the public wrapper `instantiate` always supplies enough
fuel for the given input, since every recursive call descends into a strict
subterm of the raw input. -/
def instantiateF (reg : Registry) : Nat → String → Option RawValue → Record
  | 0, e, _ => .mk e []
  | fuel + 1, e, input =>
    match alookup e reg with
    | none => .mk e []
    | some sch =>
      .mk e (sch.fields.map
        (buildField (fun rel v => instantiateF reg fuel rel (some v)) sch input))

mutual
/-- The size of a raw value, used as the fuel budget for instantiation. -/
def RawValue.size : RawValue → Nat
  | .prim _ => 1
  | .obj kvs => 1 + sizeKvs kvs
  | .arr xs => 1 + sizeArr xs
/-- Total size of the values of a raw object's key/value list. -/
def sizeKvs : List (String × RawValue) → Nat
  | [] => 0
  | p :: rest => p.2.size + sizeKvs rest
/-- Total size of a raw array's elements. -/
def sizeArr : List RawValue → Nat
  | [] => 0
  | x :: rest => x.size + sizeArr rest
end

/-- Fuel budget for a raw input: one unit more than its size, so that the
top level always unfolds and nested data never exhausts the fuel. -/
def fuelPred : Option RawValue → Nat
  | none => 0
  | some rv => rv.size

/-- Modelled from the spec: `instantiate(entity_type, raw_input) -> Record`
(§4.2), the public instantiation pipeline. -/
def instantiate (reg : Registry) (e : String) (input : Option RawValue) : Record :=
  instantiateF reg (fuelPred input + 1) e input

mutual
/-- Modelled from the spec: `serialize(record)` (§4.4) — for every field the
record holds, in declared order, produce the plain nested output entry. -/
def serializeRecord : Record → RawValue
  | .mk _ fs => .obj (serializeFields fs)
/-- Serialization of a record's field table, preserving order. -/
def serializeFields : List (String × FieldValue) → List (String × RawValue)
  | [] => []
  | (n, v) :: rest => (n, serializeField v) :: serializeFields rest
/-- Modelled from the spec: one field's serialization (§4.4) — `Plain`
stored value verbatim, absent to-one as `null`, present to-one recursively,
to-many as the ordered sequence of recursive serializations. -/
def serializeField : FieldValue → RawValue
  | .plain v => v
  | .one none => .prim .pNull
  | .one (some r) => serializeRecord r
  | .many rs => .arr (serializeMany rs)
/-- Serialization of an ordered sequence of records. -/
def serializeMany : List Record → List RawValue
  | [] => []
  | r :: rest => serializeRecord r :: serializeMany rest
end

/-- One field's contribution to the fully-specified-input check,
parameterized by the recursive check `spec` for nested entities: a `Plain`
field's key must be present, a `ToOne` field's key must hold a recursively
fully-specified nested value, a `ToMany` field's key must hold an array of
recursively fully-specified elements. -/
def fieldSpec (spec : String → RawValue → Bool)
    (kvs : List (String × RawValue)) (p : String × Attr) : Bool :=
  match p.2 with
  | .plain _ _ => (alookup p.1 kvs).isSome
  | .toOne rel _ =>
    match alookup p.1 kvs with
    | some v => spec rel v
    | none => false
  | .toMany rel _ =>
    match alookup p.1 kvs with
    | some (.arr xs) => xs.all (fun x => spec rel x)
    | _ => false

/-- The object-shaped part of the fully-specified check: the raw value is
an object whose keys are exactly the schema's declared field names in
declared order (without duplicates) and every field passes `fieldSpec`. -/
def objSpec (spec : String → RawValue → Bool) (sch : Schema) : RawValue → Bool
  | .obj kvs =>
    decide (kvs.map Prod.fst = sch.fields.map Prod.fst) &&
    decide ((sch.fields.map Prod.fst).Nodup) &&
    sch.fields.all (fieldSpec spec kvs)
  | _ => false

/-- Fuel-indexed check that a raw input is fully specified for an entity:
the input is an object whose keys are exactly the entity's declared field
names in declared order (without duplicates), with every relation value
recursively fully specified.  The fuel runs in lockstep with
`instantiateF`'s. -/
def fullySpecF (reg : Registry) : Nat → String → RawValue → Bool
  | 0, _, _ => false
  | fuel + 1, e, rv =>
    match alookup e reg with
    | some sch => objSpec (fun rel v => fullySpecF reg fuel rel v) sch rv
    | none => false

/-- A raw input is fully specified for an entity when every declared field
is present (relations recursively so) and no undeclared key appears. -/
def fullySpecified (reg : Registry) (e : String) (rv : RawValue) : Bool :=
  fullySpecF reg (fuelPred (some rv) + 1) e rv

/-- An attribute descriptor carries no descriptor-level mutator. -/
def Attr.noMut : Attr → Bool
  | .plain _ m => m.isNone
  | _ => true

/-- A schema declares no mutator at all: no descriptor-level mutator on any
field and an empty entity-level mutator table. -/
def Schema.noMuts (sch : Schema) : Bool :=
  sch.fields.all (fun p => p.2.noMut) && sch.mutators.isEmpty

/-- Every schema of the registry is mutation-free. -/
def regNoMuts (reg : Registry) : Bool :=
  reg.all (fun p => p.2.noMuts)

/-- Modelled from the spec: the string form a primitive key value takes in
a composite-key join (null joins as the empty string, as in a JavaScript
array join). -/
def Prim.jsString : Prim → String
  | .pNull => ""
  | .pBool b => cond b "true" "false"
  | .pNum n => toString n
  | .pStr s => s

/-- Modelled from the spec: the string form of a key-field value in the
composite join.  The spec fixes the join only for primitive key values;
non-primitive values are given a fixed placeholder. -/
def RawValue.keyString : RawValue → String
  | .prim p => p.jsString
  | .obj _ => "[object Object]"
  | .arr _ => ""

/-- Join form of a possibly-absent key-field value (an absent field joins
as the empty string). -/
def keyStrOpt : Option RawValue → String
  | none => ""
  | some rv => rv.keyString

/-- Modelled from the spec: `compute_id(entity_type, data)` (§4.3) — a
scalar primary key returns `data[primary_key]` verbatim (any type, not
coerced); a composite key returns the string joining `data[field]` for each
key field in declared order with an underscore separator. -/
def Model.id (sch : Schema) (data : RawValue) : Option RawValue :=
  match sch.primaryKey with
  | .single k => RawValue.getKey k data
  | .composite ks =>
    some (.prim (.pStr (String.intercalate "_"
      (ks.map (fun k => keyStrOpt (RawValue.getKey k data))))))

/-- Modelled from the spec: the record-level identity accessor delegates to
the same computation using the record's own field values (§4.3). -/
def Record.idOf (sch : Schema) (r : Record) : Option RawValue :=
  Model.id sch (serializeRecord r)

/-- Modelled from the spec: `local_key_field(entity_type)` (§4.1) — the
conventional single-field identity name `"id"`, independent of the declared
primary key. -/
def Model.localKey (_sch : Schema) : String := "id"

/-- The three built-in attribute kinds resolvable by name. -/
inductive AttrKind where
  | plainKind : AttrKind
  | toOneKind : AttrKind
  | toManyKind : AttrKind
deriving DecidableEq

/-- The error taxonomy of the core (§7): only `UnknownAttributeKind`. -/
inductive ModelError where
  | unknownAttributeKind : String → ModelError
deriving DecidableEq

/-- Modelled from the spec: the registered attribute-kind constructors; the
three kinds of §3 are the built-ins that must always be present. -/
def attributeClasses : List (String × AttrKind) :=
  [("attr", .plainKind), ("belongsTo", .toOneKind), ("hasMany", .toManyKind)]

/-- Modelled from the spec: `get_attribute_descriptor` (§4.1) — resolves a
named attribute-kind identifier to its constructor and fails with
`UnknownAttributeKind` when the name has no registered constructor. -/
def getAttributeClass (name : String) : Except ModelError AttrKind :=
  match alookup name attributeClasses with
  | some k => .ok k
  | none => .error (.unknownAttributeKind name)

/-- Whether a fallible resolution succeeded. -/
def isOkE {ε α : Type} : Except ε α → Bool
  | .ok _ => true
  | .error _ => false

/-- Modelled from the spec: an entity type's declaration — entity name,
declared primary key, the optional field-declaration hook's result, and the
mutator-declaration hook's result (§6). -/
structure ModelDecl where
  entity : String
  primaryKey : PrimaryKey
  declaredFields : Option (List (String × Attr))
  mutators : List (String × (RawValue → RawValue))

/-- Modelled from the spec: Schema construction from a declaration — a
missing declared-fields schema is valid and equals an empty mapping (§3). -/
def buildSchema (d : ModelDecl) : Schema :=
  { entity := d.entity, primaryKey := d.primaryKey,
    fields := d.declaredFields.getD [], mutators := d.mutators }

/-- The type-level field-declaration accessor of an entity type. -/
def Model.fieldsOf (d : ModelDecl) : List (String × Attr) :=
  (buildSchema d).fields

/-- The instance-level field accessor: it delegates to the type-level
accessor of the record's entity type, ignoring the instance. -/
def Record.instanceFields (d : ModelDecl) (_r : Record) : List (String × Attr) :=
  Model.fieldsOf d

/-- The field value instantiation stores when the raw input is absent:
the mutated descriptor default for a plain field, the absent state for a
to-one field, the empty sequence for a to-many field. -/
def defaultFieldValue (sch : Schema) (p : String × Attr) : FieldValue :=
  match p.2 with
  | .plain dv dm => .plain (applyMutation sch p.1 dm dv)
  | .toOne _ _ => .one none
  | .toMany _ _ => .many []

/-!
## The `subGetters` Vuex module (embedded from `src/src/modules/subGetters.ts`)
-/

/-- The entity-module state consumed by `subGetters`: its `$connection` and
`$name` fields. -/
structure EntityState where
  connection : String
  name : String

/-- An id passed to `find`: `string | number`. -/
inductive JsId where
  | strId : String → JsId
  | numId : Int → JsId

/-- One argument forwarded to a root getter. -/
inductive GetterArg where
  | argStr : String → GetterArg
  | argId : JsId → GetterArg
  | argWrap : Option Bool → GetterArg

/-- The `query` getter of `subGetters`: returns the root getter
`<$connection>/query` applied to `($name, wrap)`. -/
def subGetters.query {α γ σ : Type} (state : EntityState) (_getters : γ)
    (_rootState : σ) (rootGetters : String → List GetterArg → α)
    (wrap : Option Bool) : α :=
  rootGetters (state.connection ++ "/query") [.argStr state.name, .argWrap wrap]

/-- The `all` getter of `subGetters`: returns the root getter
`<$connection>/all` applied to `($name, wrap)`. -/
def subGetters.all {α γ σ : Type} (state : EntityState) (_getters : γ)
    (_rootState : σ) (rootGetters : String → List GetterArg → α)
    (wrap : Option Bool) : α :=
  rootGetters (state.connection ++ "/all") [.argStr state.name, .argWrap wrap]

/-- The `find` getter of `subGetters`: returns the root getter
`<$connection>/find` applied to `($name, id, wrap)`. -/
def subGetters.find {α γ σ : Type} (state : EntityState) (_getters : γ)
    (_rootState : σ) (rootGetters : String → List GetterArg → α)
    (i : JsId) (wrap : Option Bool) : α :=
  rootGetters (state.connection ++ "/find") [.argStr state.name, .argId i, .argWrap wrap]

/-!
## Concrete fixtures (the entities and data of the unit tests)
-/

/-- Shorthand for a string raw value. -/
def rs (s : String) : RawValue := .prim (.pStr s)

/-- Shorthand for a numeric raw value. -/
def rn (n : Int) : RawValue := .prim (.pNum n)

/-- Upper-casing of a string, character by character. -/
def upperStr (s : String) : String := String.mk (s.data.map Char.toUpper)

/-- The upper-casing mutator used by the mutator tests. -/
def upperMut : RawValue → RawValue
  | .prim (.pStr s) => .prim (.pStr (upperStr s))
  | v => v

/-- The `User` schema of the serialization test: `id`, `name`. -/
def userSch : Schema :=
  { entity := "users", primaryKey := .single "id",
    fields := [("id", .plain (.prim .pNull) none),
               ("name", .plain (rs "John Doe") none)],
    mutators := [] }

/-- The `Comment` schema of the serialization test: `id`, `post_id`,
`body`. -/
def commentSch : Schema :=
  { entity := "comments", primaryKey := .single "id",
    fields := [("id", .plain (.prim .pNull) none),
               ("post_id", .plain (.prim .pNull) none),
               ("body", .plain (rs "") none)],
    mutators := [] }

/-- The `Post` schema of the serialization test: plain `id`, `user_id`,
`title`, a to-one `author` and a to-many `comments`. -/
def postSch : Schema :=
  { entity := "posts", primaryKey := .single "id",
    fields := [("id", .plain (.prim .pNull) none),
               ("user_id", .plain (.prim .pNull) none),
               ("title", .plain (rs "") none),
               ("author", .toOne "users" "user_id"),
               ("comments", .toMany "comments" "post_id")],
    mutators := [] }

/-- The registry of the serialization test. -/
def postReg : Registry :=
  [("users", userSch), ("comments", commentSch), ("posts", postSch)]

/-- The nested input of the serialization test, keys in declared order. -/
def postInput : RawValue :=
  .obj [("id", rn 1), ("user_id", rn 1), ("title", rs "Post Title"),
        ("author", .obj [("id", rn 1), ("name", rs "John")]),
        ("comments", .arr
          [.obj [("id", rn 1), ("post_id", rn 1), ("body", rs "C1")],
           .obj [("id", rn 2), ("post_id", rn 1), ("body", rs "C2")]])]

/-- A `Post` schema identical to `postSch` except that `title` carries an
upper-casing descriptor-level mutator. -/
def postSchM : Schema :=
  { entity := "posts", primaryKey := .single "id",
    fields := [("id", .plain (.prim .pNull) none),
               ("user_id", .plain (.prim .pNull) none),
               ("title", .plain (rs "") (some upperMut)),
               ("author", .toOne "users" "user_id"),
               ("comments", .toMany "comments" "post_id")],
    mutators := [] }

/-- A registry like `postReg` but whose `posts` schema mutates `title`. -/
def postRegM : Registry :=
  [("users", userSch), ("comments", commentSch), ("posts", postSchM)]

/-- A `users` schema whose single field `name` defaults to `"john"` and
carries an upper-casing descriptor-level mutator. -/
def mutUserSch : Schema :=
  { entity := "users", primaryKey := .single "id",
    fields := [("name", .plain (rs "john") (some upperMut))],
    mutators := [] }

/-- Registry for the mutated-default counterexamples. -/
def mutUserReg : Registry := [("users", mutUserSch)]

/-- The `users` schema of the mutator-precedence test: a descriptor-level
upper-casing mutator on `name` and an entity-level mutator on the same
field returning a constant. -/
def precUserSch : Schema :=
  { entity := "users", primaryKey := .single "id",
    fields := [("name", .plain (rs "") (some upperMut))],
    mutators := [("name", fun _ => rs "Not Expected")] }

/-- Registry for the mutator-precedence test. -/
def precUserReg : Registry := [("users", precUserSch)]

/-- The `users` schema of the default-and-override tests: `name` defaults
to `"John Doe"`, `email` to `"john@example.com"`, no mutators. -/
def plainUserSch : Schema :=
  { entity := "users", primaryKey := .single "id",
    fields := [("name", .plain (rs "John Doe") none),
               ("email", .plain (rs "john@example.com") none)],
    mutators := [] }

/-- Registry for the default-and-override tests. -/
def plainUserReg : Registry := [("users", plainUserSch)]

/-- The scalar-identity test schema: single primary key `id`. -/
def idUserSch : Schema :=
  { entity := "users", primaryKey := .single "id",
    fields := [("id", .plain (.prim .pNull) none)],
    mutators := [] }

/-- Registry for the scalar-identity test. -/
def idUserReg : Registry := [("users", idUserSch)]

/-- The composite-identity test schema: primary key
`["vote_id", "user_id"]`. -/
def voteSch : Schema :=
  { entity := "votes", primaryKey := .composite ["vote_id", "user_id"],
    fields := [("vote_id", .plain (.prim .pNull) none),
               ("user_id", .plain (.prim .pNull) none)],
    mutators := [] }

/-- Registry for the composite-identity test. -/
def voteReg : Registry := [("votes", voteSch)]

/-- The composite-identity test data, its fields in the opposite order to
the declared `primary_key`. -/
def voteData : RawValue := .obj [("user_id", rn 1), ("vote_id", rn 2)]

/-- A declaration with no declared fields (the empty-fields test). -/
def bareDecl : ModelDecl :=
  { entity := "users", primaryKey := .single "id",
    declaredFields := none, mutators := [] }

/-!
## Lemmas: association-list lookup and the shape of instantiated records
-/

theorem alookup_of_mem {β : Type} :
    ∀ (l : List (String × β)) (n : String) (b : β),
      (l.map Prod.fst).Nodup → (n, b) ∈ l → alookup n l = some b := by
  intro l
  induction l with
  | nil => intro n b _ h; cases h
  | cons q rest ih =>
    intro n b hnd hmem
    simp only [List.map_cons, List.nodup_cons] at hnd
    rcases List.mem_cons.mp hmem with h | h
    · rw [← h]
      simp [alookup]
    · have hne : q.1 ≠ n := by
        intro he
        exact hnd.1 (he ▸ List.mem_map_of_mem Prod.fst h)
      rw [alookup, if_neg hne]
      exact ih n b hnd.2 h

theorem alookup_map_of_mem {β γ : Type} (F : String × β → String × γ)
    (hF : ∀ p, (F p).1 = p.1) :
    ∀ (l : List (String × β)) (n : String) (b : β),
      (l.map Prod.fst).Nodup → (n, b) ∈ l →
      alookup n (l.map F) = some (F (n, b)).2 := by
  intro l
  induction l with
  | nil => intro n b _ h; cases h
  | cons q rest ih =>
    intro n b hnd hmem
    simp only [List.map_cons, List.nodup_cons] at hnd
    rcases List.mem_cons.mp hmem with h | h
    · rw [← h]
      simp [alookup, hF]
    · have hne : (F q).1 ≠ n := by
        rw [hF]
        intro he
        exact hnd.1 (he ▸ List.mem_map_of_mem Prod.fst h)
      rw [List.map_cons, alookup, if_neg hne]
      exact ih n b hnd.2 h

theorem alookup_map_of_not_mem {β γ : Type} (F : String × β → String × γ)
    (hF : ∀ p, (F p).1 = p.1) :
    ∀ (l : List (String × β)) (n : String),
      n ∉ l.map Prod.fst → alookup n (l.map F) = none := by
  intro l
  induction l with
  | nil => intro n _; rfl
  | cons q rest ih =>
    intro n hn
    simp only [List.map_cons, List.mem_cons, not_or] at hn
    have hne : (F q).1 ≠ n := by rw [hF]; exact fun he => hn.1 he.symm
    rw [List.map_cons, alookup, if_neg hne]
    exact ih n hn.2

/-- The record instantiation produces for an entity has exactly the
declared field names, in declared order, for every raw input. -/
theorem fieldNames_instantiate (reg : Registry) (e : String) (sch : Schema)
    (input : Option RawValue) (hsch : alookup e reg = some sch) :
    Record.fieldNames (instantiate reg e input) = sch.fields.map Prod.fst := by
  rw [instantiate, instantiateF, hsch]
  simp only [Record.fieldNames, Record.fieldTable, List.map_map]
  exact List.map_congr_left (fun p _ => rfl)

/-- Field access on an instantiated record: a declared field `n` holds
exactly the value `buildField` computes for it at one fuel step down. -/
theorem getField_instantiate (reg : Registry) (e : String) (sch : Schema)
    (input : Option RawValue) (n : String) (a : Attr)
    (hsch : alookup e reg = some sch)
    (hnd : (sch.fields.map Prod.fst).Nodup)
    (hmem : (n, a) ∈ sch.fields) :
    Record.getField (instantiate reg e input) n =
      some (buildField (fun rel v => instantiateF reg (fuelPred input) rel (some v))
        sch input (n, a)).2 := by
  rw [instantiate, instantiateF, hsch]
  simp only [Record.getField, Record.fieldTable]
  exact alookup_map_of_mem
    (buildField (fun rel v => instantiateF reg (fuelPred input) rel (some v)) sch input)
    (fun p => rfl) sch.fields n a hnd hmem

/-- Field access on an instantiated record at an undeclared key yields
nothing. -/
theorem getField_instantiate_undeclared (reg : Registry) (e : String)
    (sch : Schema) (input : Option RawValue) (k : String)
    (hsch : alookup e reg = some sch)
    (hk : k ∉ sch.fields.map Prod.fst) :
    Record.getField (instantiate reg e input) k = none := by
  rw [instantiate, instantiateF, hsch]
  simp only [Record.getField, Record.fieldTable]
  exact alookup_map_of_not_mem
    (buildField (fun rel v => instantiateF reg (fuelPred input) rel (some v)) sch input)
    (fun p => rfl) sch.fields k hk

theorem buildField_plain_none (inst : String → RawValue → Record) (sch : Schema)
    (KVS : List (String × RawValue)) (n : String) (dv v : RawValue)
    (hent : sch.mutators = []) (hlk : alookup n KVS = some v) :
    buildField inst sch (some (.obj KVS)) (n, .plain dv none) = (n, .plain v) := by
  simp only [buildField, Option.bind, RawValue.getKey, hlk, applyMutation, hent, alookup]

theorem buildField_toOne_present (inst : String → RawValue → Record) (sch : Schema)
    (KVS : List (String × RawValue)) (n rel fk : String) (v : RawValue)
    (hlk : alookup n KVS = some v) :
    buildField inst sch (some (.obj KVS)) (n, .toOne rel fk) =
      (n, .one (some (inst rel v))) := by
  simp only [buildField, Option.bind, RawValue.getKey, hlk]

theorem buildField_toMany_arr (inst : String → RawValue → Record) (sch : Schema)
    (KVS : List (String × RawValue)) (n rel fk : String) (xs : List RawValue)
    (hlk : alookup n KVS = some (.arr xs)) :
    buildField inst sch (some (.obj KVS)) (n, .toMany rel fk) =
      (n, .many (xs.map (fun x => inst rel x))) := by
  simp only [buildField, Option.bind, RawValue.getKey, hlk]

/-- A mutation-free registry only holds mutation-free schemas. -/
theorem noMuts_of_regNoMuts :
    ∀ (reg : Registry) (e : String) (sch : Schema),
      regNoMuts reg = true → alookup e reg = some sch → sch.noMuts = true := by
  intro reg
  induction reg with
  | nil => intro e sch _ h; cases h
  | cons q rest ih =>
    intro e sch hall hl
    rw [regNoMuts, List.all_cons, Bool.and_eq_true] at hall
    rw [alookup] at hl
    by_cases he : q.1 = e
    · rw [if_pos he] at hl
      cases hl
      exact hall.1
    · rw [if_neg he] at hl
      exact ih e sch hall.2 hl

/-!
## The round-trip property (serialize after instantiate)
-/

theorem roundTripMany (reg : Registry) (fuel : Nat) (rel : String)
    (IH : ∀ e v, fullySpecF reg fuel e v = true →
      serializeRecord (instantiateF reg fuel e (some v)) = v) :
    ∀ xs : List RawValue,
      xs.all (fun x => fullySpecF reg fuel rel x) = true →
      serializeMany (xs.map (fun x => instantiateF reg fuel rel (some x))) = xs := by
  intro xs
  induction xs with
  | nil => intro _; rfl
  | cons x rest ih =>
    intro hall
    rw [List.all_cons, Bool.and_eq_true] at hall
    rw [List.map_cons, serializeMany]
    rw [IH rel x hall.1, ih hall.2]

theorem roundTripFields (reg : Registry) (fuel : Nat) (sch : Schema)
    (KVS : List (String × RawValue))
    (IH : ∀ e v, fullySpecF reg fuel e v = true →
      serializeRecord (instantiateF reg fuel e (some v)) = v)
    (hent : sch.mutators = []) :
    ∀ (fields : List (String × Attr)) (kvs : List (String × RawValue)),
      fields.map Prod.fst = kvs.map Prod.fst →
      (∀ n v, (n, v) ∈ kvs → alookup n KVS = some v) →
      fields.all (fun p => p.2.noMut) = true →
      fields.all (fieldSpec (fun rel v => fullySpecF reg fuel rel v) KVS) = true →
      serializeFields (fields.map
        (buildField (fun rel v => instantiateF reg fuel rel (some v)) sch
          (some (.obj KVS)))) = kvs := by
  intro fields
  induction fields with
  | nil =>
    intro kvs hnames _ _ _
    cases kvs with
    | nil => rfl
    | cons q kr => simp at hnames
  | cons p fr ih =>
    intro kvs hnames hmem hmut hspec
    cases kvs with
    | nil => simp at hnames
    | cons q kr =>
      obtain ⟨n, a⟩ := p
      obtain ⟨qn, v⟩ := q
      simp only [List.map_cons, List.cons.injEq] at hnames
      have hq : n = qn := hnames.1
      subst hq
      have hlk : alookup n KVS = some v := hmem n v (List.mem_cons_self _ _)
      have hmemtl : ∀ m w, (m, w) ∈ kr → alookup m KVS = some w :=
        fun m w hw => hmem m w (List.mem_cons_of_mem _ hw)
      rw [List.all_cons, Bool.and_eq_true] at hmut hspec
      rw [List.map_cons]
      cases a with
      | plain dv dm =>
        have hdm : dm = none := by
          have h1 := hmut.1
          rw [Attr.noMut] at h1
          exact Option.isNone_iff_eq_none.mp h1
        subst hdm
        rw [buildField_plain_none _ sch KVS n dv v hent hlk, serializeFields,
          serializeField]
        exact congrArg (List.cons (n, v)) (ih kr hnames.2 hmemtl hmut.2 hspec.2)
      | toOne rel fk =>
        have hs : fullySpecF reg fuel rel v = true := by
          have h1 := hspec.1
          rw [fieldSpec] at h1
          simpa [hlk] using h1
        rw [buildField_toOne_present _ sch KVS n rel fk v hlk, serializeFields,
          serializeField, IH rel v hs]
        exact congrArg (List.cons (n, v)) (ih kr hnames.2 hmemtl hmut.2 hspec.2)
      | toMany rel fk =>
        have h1 := hspec.1
        rw [fieldSpec] at h1
        cases v with
        | prim pv => simp [hlk] at h1
        | obj o => simp [hlk] at h1
        | arr xs =>
          have hs : xs.all (fun x => fullySpecF reg fuel rel x) = true := by
            simpa [hlk] using h1
          rw [buildField_toMany_arr _ sch KVS n rel fk xs hlk, serializeFields,
            serializeField, roundTripMany reg fuel rel IH xs hs]
          exact congrArg (List.cons (n, .arr xs)) (ih kr hnames.2 hmemtl hmut.2 hspec.2)

theorem roundTripF (reg : Registry) (hm : regNoMuts reg = true) :
    ∀ (fuel : Nat) (e : String) (rv : RawValue),
      fullySpecF reg fuel e rv = true →
      serializeRecord (instantiateF reg fuel e (some rv)) = rv := by
  intro fuel
  induction fuel with
  | zero => intro e rv h; simp [fullySpecF] at h
  | succ fuel ih =>
    intro e rv h
    rw [fullySpecF] at h
    cases hsch : alookup e reg with
    | none =>
      rw [hsch] at h
      cases h
    | some sch =>
      rw [hsch] at h
      dsimp only at h
      cases rv with
      | prim p => simp [objSpec] at h
      | arr xs => simp [objSpec] at h
      | obj kvs =>
        simp only [objSpec, Bool.and_eq_true, decide_eq_true_eq] at h
        obtain ⟨⟨hnames, hnd⟩, hall⟩ := h
        have hnm : sch.noMuts = true := noMuts_of_regNoMuts reg e sch hm hsch
        rw [Schema.noMuts, Bool.and_eq_true] at hnm
        have hent : sch.mutators = [] := List.isEmpty_iff.mp hnm.2
        have hndk : (kvs.map Prod.fst).Nodup := hnames ▸ hnd
        rw [instantiateF, hsch, serializeRecord]
        exact congrArg RawValue.obj
          (roundTripFields reg fuel sch kvs ih hent sch.fields kvs hnames.symm
            (fun m w hw => alookup_of_mem kvs m w hndk hw) hnm.1 hall)

/-!
## The claims
-/

/-- Claim C1, counterexample: the round-trip claim as stated is false once a
mutator is present.  The posts entity declares plain fields, a to-one and a
to-many relation, and an upper-casing mutator on title; the test input is
fully specified, yet serializing the instantiated record does not reproduce
the input (title comes back upper-cased). -/
theorem C1_counterexample :
    fullySpecified postRegM "posts" postInput = true ∧
    serializeRecord (instantiate postRegM "posts" (some postInput)) ≠ postInput := by
  refine ⟨by decide, ?_⟩
  intro h
  have h0 : RawValue.getKey "title"
      (serializeRecord (instantiate postRegM "posts" (some postInput))) =
      some (.prim (.pStr "POST TITLE")) := rfl
  rw [h] at h0
  have h1 : RawValue.getKey "title" postInput = some (.prim (.pStr "Post Title")) := rfl
  rw [h1] at h0
  injection h0 with h2
  injection h2 with h3
  injection h3 with h4
  exact absurd h4 (by decide)

/-- Claim C1 (amended): for every entity of a mutation-free registry (no
descriptor-level and no entity-level mutators anywhere) and every
fully-specified nested raw input, serializing the record produced by
instantiating that input reproduces the input exactly, field-for-field,
including relation nesting and the order of the to-many sequence. -/
theorem C1_round_trip (reg : Registry) (e : String) (rv : RawValue)
    (hm : regNoMuts reg = true) (hs : fullySpecified reg e rv = true) :
    serializeRecord (instantiate reg e (some rv)) = rv :=
  roundTripF reg hm (fuelPred (some rv) + 1) e rv hs

/-- Witness for C1 at the serialization test's entities and data. -/
theorem C1_round_trip_witness :
    regNoMuts postReg = true ∧ fullySpecified postReg "posts" postInput = true ∧
    serializeRecord (instantiate postReg "posts" (some postInput)) = postInput :=
  ⟨by decide, by decide,
   C1_round_trip postReg "posts" postInput (by decide) (by decide)⟩

/-- Claim C2: for a Plain field the stored value is obtained by exactly the
first applicable mutator — the descriptor-level mutator if present (the
entity-level one is then never applied), else the entity-level mutator
registered under the field's name, else the raw value unchanged. -/
theorem C2_mutator_precedence (reg : Registry) (e : String) (sch : Schema)
    (n : String) (dv : RawValue) (dm : Option (RawValue → RawValue))
    (input v : RawValue)
    (hsch : alookup e reg = some sch)
    (hnd : (sch.fields.map Prod.fst).Nodup)
    (hmem : (n, Attr.plain dv dm) ∈ sch.fields)
    (hv : RawValue.getKey n input = some v) :
    (∀ m, dm = some m →
      Record.getField (instantiate reg e (some input)) n = some (.plain (m v))) ∧
    (dm = none → ∀ g, alookup n sch.mutators = some g →
      Record.getField (instantiate reg e (some input)) n = some (.plain (g v))) ∧
    (dm = none → alookup n sch.mutators = none →
      Record.getField (instantiate reg e (some input)) n = some (.plain v)) := by
  have hgf := getField_instantiate reg e sch (some input) n
    (Attr.plain dv dm) hsch hnd hmem
  refine ⟨?_, ?_, ?_⟩
  · intro m hm
    subst hm
    rw [hgf]
    simp only [buildField, Option.bind, hv, applyMutation]
  · intro hdm g hg
    subst hdm
    rw [hgf]
    simp only [buildField, Option.bind, hv, applyMutation, hg]
  · intro hdm hg
    subst hdm
    rw [hgf]
    simp only [buildField, Option.bind, hv, applyMutation, hg]

/-- Witness for C2 at the precedence test: both mutators are declared on
name, the descriptor-level upper-casing one wins and the entity-level
constant one is never applied. -/
theorem C2_mutator_precedence_witness :
    Record.getField (instantiate precUserReg "users"
      (some (.obj [("name", rs "john doe")]))) "name" =
      some (.plain (.prim (.pStr "JOHN DOE"))) :=
  (C2_mutator_precedence precUserReg "users" precUserSch "name" (rs "")
    (some upperMut) (.obj [("name", rs "john doe")]) (rs "john doe")
    rfl (by decide) (List.mem_cons_self _ _) rfl).1 upperMut rfl

/-- Claim C3: for a composite primary key the computed identity joins the
key fields' values in the declared order with an underscore separator, the
computation depends only on the key fields' lookups (not on the order the
fields appear in the input), and the record-level accessor delegates to the
same computation on the record's own field values. -/
theorem C3_composite_identity (sch : Schema) (ks : List String) (data : RawValue)
    (hk : sch.primaryKey = .composite ks) :
    Model.id sch data = some (.prim (.pStr (String.intercalate "_"
      (ks.map (fun k => keyStrOpt (RawValue.getKey k data)))))) ∧
    (∀ kvs kvs' : List (String × RawValue),
      (∀ k ∈ ks, alookup k kvs = alookup k kvs') →
      Model.id sch (.obj kvs) = Model.id sch (.obj kvs')) ∧
    (∀ r : Record, Record.idOf sch r = Model.id sch (serializeRecord r)) := by
  refine ⟨by simp only [Model.id, hk], ?_, fun r => rfl⟩
  intro kvs kvs' hagree
  have hmaps : (ks.map fun k => keyStrOpt (alookup k kvs)) =
      ks.map fun k => keyStrOpt (alookup k kvs') :=
    List.map_congr_left (fun k hkm => by rw [hagree k hkm])
  simp only [Model.id, hk, RawValue.getKey, hmaps]

/-- Witness for C3 at the composite-key test: input fields in the opposite
order to the declared key still yield the string joining in declared
order, through both accessors. -/
theorem C3_composite_identity_witness :
    Model.id voteSch voteData = some (.prim (.pStr "2_1")) ∧
    Record.idOf voteSch (instantiate voteReg "votes" (some voteData)) =
      some (.prim (.pStr "2_1")) := by
  constructor
  · exact (C3_composite_identity voteSch ["vote_id", "user_id"] voteData rfl).1.trans
      (by rfl)
  · exact ((C3_composite_identity voteSch ["vote_id", "user_id"]
      (serializeRecord (instantiate voteReg "votes" (some voteData))) rfl).1).trans
      (by rfl)

/-- Claim C4, counterexample: with no raw input, a Plain field carrying a
mutator does not equal its descriptor default — the default john is stored
upper-cased. -/
theorem C4_counterexample :
    Record.getField (instantiate mutUserReg "users" none) "name" ≠
      some (.plain (.prim (.pStr "john"))) := by
  intro h
  have h0 : Record.getField (instantiate mutUserReg "users" none) "name" =
      some (.plain (.prim (.pStr "JOHN"))) := rfl
  rw [h] at h0
  injection h0 with h1
  injection h1 with h2
  injection h2 with h3
  injection h3 with h4
  exact absurd h4 (by decide)

/-- Claim C4 (amended): instantiating with no raw input stores, for every
Plain field, the field's resolved mutation applied to the descriptor
default (the default itself when no mutator applies), leaves every to-one
relation field absent and every to-many relation field an empty sequence;
no relation is recursively instantiated from absent data. -/
theorem C4_default_population (reg : Registry) (e : String) (sch : Schema)
    (n : String) (a : Attr)
    (hsch : alookup e reg = some sch)
    (hnd : (sch.fields.map Prod.fst).Nodup)
    (hmem : (n, a) ∈ sch.fields) :
    (∀ dv dm, a = Attr.plain dv dm →
      Record.getField (instantiate reg e none) n =
        some (.plain (applyMutation sch n dm dv))) ∧
    (∀ rel fk, a = Attr.toOne rel fk →
      Record.getField (instantiate reg e none) n = some (.one none)) ∧
    (∀ rel fk, a = Attr.toMany rel fk →
      Record.getField (instantiate reg e none) n = some (.many [])) := by
  refine ⟨?_, ?_, ?_⟩
  · intro dv dm ha
    subst ha
    rw [getField_instantiate reg e sch none n _ hsch hnd hmem]
    rfl
  · intro rel fk ha
    subst ha
    rw [getField_instantiate reg e sch none n _ hsch hnd hmem]
    rfl
  · intro rel fk ha
    subst ha
    rw [getField_instantiate reg e sch none n _ hsch hnd hmem]
    rfl

/-- Witness for C4 at the default-population test: with no input, name and
email equal their descriptor defaults (no mutators are declared). -/
theorem C4_default_population_witness :
    Record.getField (instantiate plainUserReg "users" none) "name" =
      some (.plain (.prim (.pStr "John Doe"))) ∧
    Record.getField (instantiate plainUserReg "users" none) "email" =
      some (.plain (.prim (.pStr "john@example.com"))) := by
  constructor
  · exact (C4_default_population plainUserReg "users" plainUserSch "name"
      (Attr.plain (rs "John Doe") none) rfl (by decide)
      (List.mem_cons_self _ _)).1 (rs "John Doe") none rfl
  · exact (C4_default_population plainUserReg "users" plainUserSch "email"
      (Attr.plain (rs "john@example.com") none) rfl (by decide)
      (List.mem_cons_of_mem _ (List.mem_cons_self _ _))).1
      (rs "john@example.com") none rfl

/-- Claim C5, counterexample: a declared field absent from the (present but
empty) raw input does not keep its descriptor default when a mutator is
declared — the default is stored mutated. -/
theorem C5_counterexample :
    Record.getField (instantiate mutUserReg "users" (some (.obj []))) "name" ≠
      some (.plain (.prim (.pStr "john"))) := by
  intro h
  have h0 : Record.getField (instantiate mutUserReg "users" (some (.obj []))) "name" =
      some (.plain (.prim (.pStr "JOHN"))) := rfl
  rw [h] at h0
  injection h0 with h1
  injection h1 with h2
  injection h2 with h3
  injection h3 with h4
  exact absurd h4 (by decide)

/-- Claim C5 (amended): a declared Plain field present in the input stores
the input value (with the field's mutation applied), a declared Plain field
absent from the input stores the same mutation applied to its descriptor
default (the default itself when no mutator applies), and every input key
that is not a declared field is silently dropped — accessing it on the
record yields nothing. -/
theorem C5_override_precedence (reg : Registry) (e : String) (sch : Schema)
    (input : RawValue)
    (hsch : alookup e reg = some sch)
    (hnd : (sch.fields.map Prod.fst).Nodup) :
    (∀ n dv dm v, (n, Attr.plain dv dm) ∈ sch.fields →
      RawValue.getKey n input = some v →
      Record.getField (instantiate reg e (some input)) n =
        some (.plain (applyMutation sch n dm v))) ∧
    (∀ n dv dm, (n, Attr.plain dv dm) ∈ sch.fields →
      RawValue.getKey n input = none →
      Record.getField (instantiate reg e (some input)) n =
        some (.plain (applyMutation sch n dm dv))) ∧
    (∀ k, k ∉ sch.fields.map Prod.fst →
      Record.getField (instantiate reg e (some input)) k = none) := by
  refine ⟨?_, ?_, ?_⟩
  · intro n dv dm v hmem hv
    rw [getField_instantiate reg e sch (some input) n _ hsch hnd hmem]
    simp only [buildField, Option.bind, hv]
  · intro n dv dm hmem hv
    rw [getField_instantiate reg e sch (some input) n _ hsch hnd hmem]
    simp only [buildField, Option.bind, hv]
  · intro k hk
    exact getField_instantiate_undeclared reg e sch (some input) k hsch hk

/-- Witness for C5 at the partial-input test: name is overridden, email
keeps its default, and the undeclared age key is dropped. -/
theorem C5_override_precedence_witness :
    Record.getField (instantiate plainUserReg "users"
      (some (.obj [("name", rs "Jane Doe"), ("age", rn 32)]))) "name" =
      some (.plain (.prim (.pStr "Jane Doe"))) ∧
    Record.getField (instantiate plainUserReg "users"
      (some (.obj [("name", rs "Jane Doe"), ("age", rn 32)]))) "email" =
      some (.plain (.prim (.pStr "john@example.com"))) ∧
    Record.getField (instantiate plainUserReg "users"
      (some (.obj [("name", rs "Jane Doe"), ("age", rn 32)]))) "age" = none := by
  refine ⟨?_, ?_, ?_⟩
  · exact (C5_override_precedence plainUserReg "users" plainUserSch
      (.obj [("name", rs "Jane Doe"), ("age", rn 32)]) rfl (by decide)).1
      "name" (rs "John Doe") none (rs "Jane Doe")
      (List.mem_cons_self _ _) rfl
  · exact (C5_override_precedence plainUserReg "users" plainUserSch
      (.obj [("name", rs "Jane Doe"), ("age", rn 32)]) rfl (by decide)).2.1
      "email" (rs "john@example.com") none
      (List.mem_cons_of_mem _ (List.mem_cons_self _ _)) rfl
  · exact (C5_override_precedence plainUserReg "users" plainUserSch
      (.obj [("name", rs "Jane Doe"), ("age", rn 32)]) rfl (by decide)).2.2
      "age" (by decide)

/-- Claim C6: resolving a named attribute kind fails exactly when the name
has no registered constructor (requesting blah fails), and instantiation
itself is total — for every registered entity and every raw input it
produces a record with exactly the declared fields, so missing keys, extra
keys, absent relation data and empty to-many sequences never fail. -/
theorem C6_unknown_attribute_kind :
    getAttributeClass "blah" = .error (.unknownAttributeKind "blah") ∧
    (∀ name, isOkE (getAttributeClass name) = true ↔
      (name = "attr" ∨ name = "belongsTo" ∨ name = "hasMany")) ∧
    (∀ (reg : Registry) (e : String) (sch : Schema) (input : Option RawValue),
      alookup e reg = some sch →
      Record.fieldNames (instantiate reg e input) = sch.fields.map Prod.fst) := by
  refine ⟨rfl, ?_, fun reg e sch input hsch =>
    fieldNames_instantiate reg e sch input hsch⟩
  intro name
  constructor
  · intro h
    by_cases h1 : name = "attr"
    · exact Or.inl h1
    by_cases h2 : name = "belongsTo"
    · exact Or.inr (Or.inl h2)
    by_cases h3 : name = "hasMany"
    · exact Or.inr (Or.inr h3)
    exfalso
    have hne1 : ("attr" : String) ≠ name := fun he => h1 he.symm
    have hne2 : ("belongsTo" : String) ≠ name := fun he => h2 he.symm
    have hne3 : ("hasMany" : String) ≠ name := fun he => h3 he.symm
    have hnone : alookup name attributeClasses = none := by
      simp [attributeClasses, alookup, hne1, hne2, hne3]
    rw [getAttributeClass, hnone] at h
    cases h
  · intro h
    rcases h with h | h | h <;> subst h <;> rfl

/-- Witness for C6: the built-in attr kind resolves, and instantiation at a
registered entity with no input yields the record with the declared
fields. -/
theorem C6_unknown_attribute_kind_witness :
    isOkE (getAttributeClass "attr") = true ∧
    Record.fieldNames (instantiate plainUserReg "users" none) = ["name", "email"] :=
  ⟨(C6_unknown_attribute_kind.2.1 "attr").mpr (Or.inl rfl),
   C6_unknown_attribute_kind.2.2 plainUserReg "users" plainUserSch none rfl⟩

/-- Claim C7: for a scalar primary key the computed identity is the data's
key field verbatim, uncoerced (absent stays absent), and the record-level
accessor delegates to the same computation on the record's own field
values. -/
theorem C7_scalar_identity (sch : Schema) (k : String) (data : RawValue)
    (hk : sch.primaryKey = .single k) :
    Model.id sch data = RawValue.getKey k data ∧
    (∀ r : Record, Record.idOf sch r = Model.id sch (serializeRecord r)) := by
  refine ⟨?_, fun r => rfl⟩
  simp only [Model.id, hk]

/-- Witness for C7 at the scalar-identity test: the computed key of the
data mapping id to 1 is the number 1, through both accessors. -/
theorem C7_scalar_identity_witness :
    Model.id idUserSch (.obj [("id", rn 1)]) = some (rn 1) ∧
    Record.idOf idUserSch
      (instantiate idUserReg "users" (some (.obj [("id", rn 1)]))) =
      some (rn 1) := by
  constructor
  · exact (C7_scalar_identity idUserSch "id" (.obj [("id", rn 1)]) rfl).1.trans rfl
  · exact ((C7_scalar_identity idUserSch "id"
      (serializeRecord (instantiate idUserReg "users"
        (some (.obj [("id", rn 1)])))) rfl).1).trans rfl

/-- Claim C8: the local-key accessor returns the fixed string id for every
entity type, independent of its declared primary key. -/
theorem C8_local_key (sch : Schema) : Model.localKey sch = "id" := rfl

/-- Claim C9: an entity type that declares no fields has the empty mapping
as its schema — both the type-level and the instance-level field accessors
return the empty mapping — and instantiation succeeds, producing the record
with no fields for every raw input. -/
theorem C9_empty_fields (d : ModelDecl) (hf : d.declaredFields = none) :
    Model.fieldsOf d = [] ∧
    (∀ r : Record, Record.instanceFields d r = []) ∧
    (∀ input : Option RawValue,
      instantiate [(d.entity, buildSchema d)] d.entity input =
        Record.mk d.entity []) := by
  have hfe : (buildSchema d).fields = [] := by simp [buildSchema, hf]
  refine ⟨hfe, fun r => hfe, ?_⟩
  intro input
  have hl : alookup d.entity [(d.entity, buildSchema d)] = some (buildSchema d) := by
    simp [alookup]
  rw [instantiate, instantiateF, hl]
  dsimp only
  rw [hfe]
  rfl

/-- Witness for C9 at an entity with no declared fields. -/
theorem C9_empty_fields_witness :
    Model.fieldsOf bareDecl = [] ∧
    instantiate [("users", buildSchema bareDecl)] "users" none =
      Record.mk "users" [] := by
  have h := C9_empty_fields bareDecl rfl
  exact ⟨h.1, h.2.2 none⟩

/-- Claim C10: the three entity-module getters are pure pass-through
delegations — each returns exactly the root getter named by the state's
connection applied to the state's entity name and the caller's arguments,
forwarded unchanged. -/
theorem C10_subgetters_delegate {α γ σ : Type}
    (state : EntityState) (g : γ) (rst : σ)
    (rootGetters : String → List GetterArg → α)
    (wrap : Option Bool) (i : JsId) :
    subGetters.query state g rst rootGetters wrap =
      rootGetters (state.connection ++ "/query") [.argStr state.name, .argWrap wrap] ∧
    subGetters.all state g rst rootGetters wrap =
      rootGetters (state.connection ++ "/all") [.argStr state.name, .argWrap wrap] ∧
    subGetters.find state g rst rootGetters i wrap =
      rootGetters (state.connection ++ "/find")
        [.argStr state.name, .argId i, .argWrap wrap] :=
  ⟨rfl, rfl, rfl⟩
